import Mathlib

/-!
Shallow embedding of the quiz-generation pipeline of `src/app.py`
(a Streamlit quiz app backed by a remote text-generation endpoint).

Conventions of the embedding:
* Python `dict`/`list` JSON values are modelled by the inductive `JVal`.
* `json.loads` is modelled by the executable parser `jsonLoads` (strict mode:
  raw control characters inside strings are rejected, whitespace is the four
  JSON whitespace characters).  Floats, `NaN`/`Infinity` literals and lone
  surrogate `\uXXXX` escapes are not modelled: no claim touches them, and
  every concrete input used below is integer/string-only JSON.
* Python exceptions are modelled by `Except PyErr`; the distinct exception
  classes that matter to the control flow (`json.JSONDecodeError`, `KeyError`,
  `TypeError`, `IndexError`, `AttributeError`, the `Exception` raised by
  `gemini_chat`, and transport errors from `requests.post`) are the
  constructors of `PyErr`.
* `st.error` calls are modelled by threading a `StContext` that accumulates
  the user-facing messages in order.
* The network is modelled as an oracle `net : Nat → Except PyErr HttpResponse`
  giving the outcome of the i-th HTTP POST performed by `requests.post`.
-/

/-- JSON value, the model of Python objects produced by `json.loads`. -/
inductive JVal where
  | null : JVal
  | bool : Bool → JVal
  | num : Int → JVal
  | str : String → JVal
  | arr : List JVal → JVal
  | obj : List (String × JVal) → JVal

/-- Python exception classes that the control flow of `src/app.py`
distinguishes. `apiError` is the `Exception` raised by `gemini_chat` on a
non-200 status; it carries the status code and the response body. -/
inductive PyErr where
  | transport : PyErr
  | apiError : Nat → String → PyErr
  | jsonDecodeError : PyErr
  | keyError : String → PyErr
  | typeError : PyErr
  | indexError : PyErr
  | attributeError : PyErr
deriving DecidableEq

/-- JSON whitespace, as accepted between tokens by Python `json.loads`. -/
def isJsonWs (c : Char) : Bool :=
  c = ' ' || c = '\t' || c = '\n' || c = '\r'

/-- Drop leading JSON whitespace. -/
def skipWs : List Char → List Char
  | [] => []
  | c :: cs => if isJsonWs c then skipWs cs else c :: cs

/-- Value of one hexadecimal digit, as accepted in a `\uXXXX` escape. -/
def hexVal (c : Char) : Option Nat :=
  if '0' ≤ c && c ≤ '9' then some (c.toNat - 48)
  else if 'a' ≤ c && c ≤ 'f' then some (c.toNat - 87)
  else if 'A' ≤ c && c ≤ 'F' then some (c.toNat - 55)
  else none

/-- Value of the four hexadecimal digits of a `\uXXXX` escape. -/
def hex4 (a b c d : Char) : Option Nat :=
  match hexVal a, hexVal b, hexVal c, hexVal d with
  | some x, some y, some z, some w => some (x * 4096 + y * 256 + z * 16 + w)
  | _, _, _, _ => none

/-- Prepend a character to the string part of a string-body parse result. -/
def consStr (c : Char) : Option (List Char × List Char) → Option (List Char × List Char)
  | some (s, r) => some (c :: s, r)
  | none => none

/-- Decoding of one escape sequence after its backslash: the decoded
character and the input remaining after the escape.  Escapes are the standard
JSON ones; a high `\uXXXX` surrogate must be followed by a low one (the pair
decodes to one character). -/
def decodeEscape : List Char → Option (Char × List Char)
  | [] => none
  | e :: cs2 =>
    if e = '"' then some ('"', cs2)
    else if e = '\\' then some ('\\', cs2)
    else if e = '/' then some ('/', cs2)
    else if e = 'b' then some ('\x08', cs2)
    else if e = 'f' then some ('\x0c', cs2)
    else if e = 'n' then some ('\n', cs2)
    else if e = 'r' then some ('\r', cs2)
    else if e = 't' then some ('\t', cs2)
    else if e = 'u' then
      match cs2 with
      | a :: b :: c2 :: d :: cs3 =>
        match hex4 a b c2 d with
        | none => none
        | some n =>
          if n < 0xd800 || 0xe000 ≤ n then some (Char.ofNat n, cs3)
          else if n < 0xdc00 then
            match cs3 with
            | x :: y :: p :: q :: r :: s :: cs4 =>
              if x = '\\' && y = 'u' then
                match hex4 p q r s with
                | some m =>
                  if 0xdc00 ≤ m && m < 0xe000 then
                    some (Char.ofNat (0x10000 + (n - 0xd800) * 0x400 + (m - 0xdc00)), cs4)
                  else none
                | none => none
              else none
            | _ => none
          else none
      | _ => none
    else none

/-- Loop of the JSON string-body scanner, on recursion fuel; every step
consumes at least one input character, so `parseStringBody` below always
supplies enough fuel.  Raw control characters are rejected, as Python
`json.loads` does in its default strict mode. -/
def parseStringBodyF : Nat → List Char → Option (List Char × List Char)
  | 0, _ => none
  | f + 1, input =>
    match input with
    | [] => none
    | c :: cs =>
      if c = '"' then some ([], cs)
      else if c = '\\' then
        match decodeEscape cs with
        | some (d, rest) => consStr d (parseStringBodyF f rest)
        | none => none
      else if c.toNat < 0x20 then none
      else consStr c (parseStringBodyF f cs)

/-- Body of a JSON string after its opening quote: returns the decoded
characters and the input remaining after the closing quote. -/
def parseStringBody (cs : List Char) : Option (List Char × List Char) :=
  parseStringBodyF (cs.length + 1) cs

/-- Longest run of leading decimal digits, and the rest of the input. -/
def takeDigits : List Char → List Char × List Char
  | [] => ([], [])
  | c :: cs =>
    if c.isDigit then
      match takeDigits cs with
      | (d, r) => (c :: d, r)
    else ([], c :: cs)

/-- Numeric value of a digit run. -/
def digitsToNat (l : List Char) : Nat :=
  l.foldl (fun a c => a * 10 + (c.toNat - 48)) 0

/-- Integer literal (optional minus, digits, no leading zeros), returning the
value and the remaining input.  Fractions and exponents are unmodelled. -/
def parseIntLit (input : List Char) : Option (Int × List Char) :=
  match input with
  | '-' :: cs =>
    match takeDigits cs with
    | ([], _) => none
    | ('0' :: _ :: _, _) => none
    | (d, r) => some (-(digitsToNat d : Int), r)
  | cs =>
    match takeDigits cs with
    | ([], _) => none
    | ('0' :: _ :: _, _) => none
    | (d, r) => some ((digitsToNat d : Int), r)

mutual

/-- JSON value parser, the model of Python `json.loads` tokenization.  The
first argument is recursion fuel; `jsonLoads` supplies enough for any input. -/
def parseValue : Nat → List Char → Option (JVal × List Char)
  | 0, _ => none
  | f + 1, input =>
    match input with
    | [] => none
    | c :: cs =>
      if c = '\x7b' then
        match skipWs cs with
        | '\x7d' :: rest => some (.obj [], rest)
        | cs2 => parseObjectTail f cs2
      else if c = '[' then
        match skipWs cs with
        | ']' :: rest => some (.arr [], rest)
        | cs2 => parseArrayTail f cs2
      else if c = '"' then
        match parseStringBody cs with
        | some (chars, rest) => some (.str (String.mk chars), rest)
        | none => none
      else if c = 't' then
        match cs with
        | 'r' :: 'u' :: 'e' :: rest => some (.bool true, rest)
        | _ => none
      else if c = 'f' then
        match cs with
        | 'a' :: 'l' :: 's' :: 'e' :: rest => some (.bool false, rest)
        | _ => none
      else if c = 'n' then
        match cs with
        | 'u' :: 'l' :: 'l' :: rest => some (.null, rest)
        | _ => none
      else
        match parseIntLit (c :: cs) with
        | some (n, rest) => some (.num n, rest)
        | none => none

/-- Members of a JSON object after the opening brace and leading whitespace,
when the object is non-empty.  Expects a quoted key. -/
def parseObjectTail : Nat → List Char → Option (JVal × List Char)
  | 0, _ => none
  | f + 1, input =>
    match input with
    | '"' :: cs =>
      match parseStringBody cs with
      | some (key, rest) =>
        match skipWs rest with
        | ':' :: rest2 =>
          match parseValue f (skipWs rest2) with
          | some (v, rest3) =>
            match skipWs rest3 with
            | ',' :: rest4 =>
              match parseObjectTail f (skipWs rest4) with
              | some (.obj fields, rest5) => some (.obj ((String.mk key, v) :: fields), rest5)
              | _ => none
            | '\x7d' :: rest4 => some (.obj [(String.mk key, v)], rest4)
            | _ => none
          | none => none
        | _ => none
      | none => none
    | _ => none

/-- Items of a JSON array after the opening bracket and leading whitespace,
when the array is non-empty. -/
def parseArrayTail : Nat → List Char → Option (JVal × List Char)
  | 0, _ => none
  | f + 1, input =>
    match parseValue f input with
    | some (v, rest) =>
      match skipWs rest with
      | ',' :: rest2 =>
        match parseArrayTail f (skipWs rest2) with
        | some (.arr items, rest3) => some (.arr (v :: items), rest3)
        | _ => none
      | ']' :: rest2 => some (.arr [v], rest2)
      | _ => none
    | none => none

end

/-- Model of Python `json.loads`: parse one JSON document, allowing only
whitespace around it; any other outcome is a `json.JSONDecodeError`. -/
def jsonLoads (s : String) : Except Unit JVal :=
  match parseValue (2 * s.length + 4) (skipWs s.data) with
  | some (v, rest) => if skipWs rest = [] then .ok v else .error ()
  | none => .error ()

/-- Value of the last binding of a key in an object's field list; Python dicts
keep the last value written for a duplicated key. -/
def lookupLast (fields : List (String × JVal)) (k : String) : Option JVal :=
  match fields with
  | [] => none
  | (k2, v) :: rest =>
    match lookupLast rest k with
    | some r => some r
    | none => if k2 = k then some v else none

/-- Model of Python `d[k]` on a value produced by `json.loads`: `KeyError` on
a missing key, `TypeError` when the value is not a dict. -/
def pyGetKey (v : JVal) (k : String) : Except PyErr JVal :=
  match v with
  | .obj fields =>
    match lookupLast fields k with
    | some r => .ok r
    | none => .error (.keyError k)
  | _ => .error .typeError

/-- Model of Python `l[i]` on a value produced by `json.loads`: `IndexError`
out of range, `TypeError` when the value is not a list. -/
def pyIndex (v : JVal) (i : Nat) : Except PyErr JVal :=
  match v with
  | .arr items =>
    match items[i]? with
    | some r => .ok r
    | none => .error .indexError
  | _ => .error .typeError

/-- Python truthiness of a JSON value, the test done by `if parsed:`. -/
def JVal.truthy : JVal → Bool
  | .null => false
  | .bool b => b
  | .num n => n != 0
  | .str s => !s.data.isEmpty
  | .arr l => !l.isEmpty
  | .obj f => !f.isEmpty

/-- Streamlit context: the user-facing `st.error` messages shown so far. -/
structure StContext where
  errors : List String

/-- Model of `st.error msg`. -/
def pushError (ctx : StContext) (msg : String) : StContext :=
  ⟨ctx.errors ++ [msg]⟩

/-- Message shown when salvage finds a JSON-like substring that is still
invalid (`src/app.py` line 61). -/
def invalidJsonMsg : String :=
  "❌ Gemini output contains invalid JSON. Try regenerating the quiz."

/-- Message shown when no JSON-like substring is found (`src/app.py` line 64). -/
def noJsonMsg : String :=
  "❌ Could not find JSON in Gemini response. Try regenerating the quiz."

/-- Message shown when the retry budget is exhausted (`src/app.py` line 73). -/
def retryFailMsg : String :=
  "❌ Failed to generate valid JSON quiz after multiple attempts."

/-- Suffix of the input starting at its first left brace, if any: the start
of the match of the regex used on `src/app.py` line 56. -/
def dropToLBrace : List Char → Option (List Char)
  | [] => none
  | c :: cs => if c = '\x7b' then some (c :: cs) else dropToLBrace cs

/-- Prefix of the input ending at its last right brace, if any: the greedy
end of the match of the regex used on `src/app.py` line 56. -/
def takeToLastRBrace : List Char → Option (List Char)
  | [] => none
  | c :: cs =>
    match takeToLastRBrace cs with
    | some r => some (c :: r)
    | none => if c = '\x7d' then some [c] else none

/-- Model of `re.search` with the pattern matching a left brace, then any
characters including newlines (greedy, `re.DOTALL`), then a right brace: the
match runs from the first left brace to the last right brace after it. -/
def jsonSearch (s : List Char) : Option (List Char) :=
  match dropToLBrace s with
  | some t => takeToLastRBrace t
  | none => none

/-- Strict interpretation retried on the salvaged substring: the inner
`try` of `parse_quiz` (`src/app.py` lines 58-62).  A `JSONDecodeError` is
caught and reported; a `KeyError`/`TypeError` from the subscript escapes. -/
def salvageOn (ctx : StContext) (m : List Char) : StContext × Except PyErr JVal :=
  match jsonLoads (String.mk m) with
  | .ok v => (ctx, pyGetKey v "quiz")
  | .error _ => (pushError ctx invalidJsonMsg, .ok (.arr []))

/-- Model of `parse_quiz` (`src/app.py` lines 52-65), threading the Streamlit
context.  Only `json.JSONDecodeError` is caught: a `KeyError` from a parsed
document that lacks the key escapes to the caller. -/
def parse_quiz (ctx : StContext) (quiz_text : String) : StContext × Except PyErr JVal :=
  match jsonLoads quiz_text with
  | .ok v => (ctx, pyGetKey v "quiz")
  | .error _ =>
    match jsonSearch quiz_text.data with
    | some m => salvageOn ctx m
    | none => (pushError ctx noJsonMsg, .ok (.arr []))

/-- Records returned by `parse_quiz` on a fresh context; `parse_quiz` never
reads the context (proved below), so this is the parser as a pure function. -/
def parseQuizValue (quiz_text : String) : Except PyErr JVal :=
  (parse_quiz ⟨[]⟩ quiz_text).2

/-- Python `str.strip()` whitespace (ASCII): space, tab, newline, carriage
return, vertical tab, form feed. -/
def isPyWs (c : Char) : Bool :=
  c = ' ' || c = '\t' || c = '\n' || c = '\r' || c = '\x0b' || c = '\x0c'

/-- Model of Python `s.strip()`: drop leading and trailing whitespace. -/
def pyStrip (s : String) : String :=
  String.mk (((s.data.dropWhile isPyWs).reverse.dropWhile isPyWs).reverse)

/-- Instruction prompt built by `generate_quiz` (`src/app.py` lines 31-49),
with the topics embedded verbatim. -/
def quizPrompt (categories : String) : String :=
  "\nYou are an expert cybersecurity instructor.\nAlways respond ONLY in STRICT JSON.\n\nCreate a cybersecurity quiz with EXACTLY 10 MCQs.\n\nSTRICT FORMAT ONLY:\n\n\x7b\n    \"quiz\": [\n        \x7b\"question\": \"...\", \"options\": [\"A. ...\", \"B. ...\", \"C. ...\", \"D. ...\"], \"correct\": \"A\", \"explanation\": \"...\"\x7d\n    ]\n\x7d\n\nNo extra text or paragraphs.\n\nTopics:\n" ++ categories ++ "\n"

/-- Reply of one HTTP POST: status code and body text. -/
structure HttpResponse where
  status : Nat
  text : String

/-- Model of `gemini_chat` (`src/app.py` lines 20-25).  The argument is the
outcome of `requests.post`: a transport exception propagates; a non-200
status raises the `Exception` carrying status and body; otherwise the body is
parsed and `candidates[0]["content"]["parts"][0]["text"]` is extracted, each
step raising as Python subscripting does. -/
def gemini_chat (resp : Except PyErr HttpResponse) : Except PyErr JVal :=
  match resp with
  | .error e => .error e
  | .ok r =>
    if r.status ≠ 200 then .error (.apiError r.status r.text)
    else
      match jsonLoads r.text with
      | .error _ => .error .jsonDecodeError
      | .ok body =>
        match pyGetKey body "candidates" with
        | .error e => .error e
        | .ok cands =>
          match pyIndex cands 0 with
          | .error e => .error e
          | .ok c0 =>
            match pyGetKey c0 "content" with
            | .error e => .error e
            | .ok content =>
              match pyGetKey content "parts" with
              | .error e => .error e
              | .ok parts =>
                match pyIndex parts 0 with
                | .error e => .error e
                | .ok p0 => pyGetKey p0 "text"

set_option linter.unusedVariables false in
/-- Model of `generate_quiz` (`src/app.py` lines 30-50): send the prompt
built from `categories` (the request is `quizPrompt categories`; its reply is
the argument `resp`), then strip the returned text.  A non-string extracted
value makes `.strip()` raise `AttributeError`. -/
def generate_quiz (categories : String) (resp : Except PyErr HttpResponse) : Except PyErr String :=
  match gemini_chat resp with
  | .error e => .error e
  | .ok (.str s) => .ok (pyStrip s)
  | .ok _ => .error .attributeError

/-- Loop body of `generate_quiz_with_retry` (`src/app.py` lines 67-74).
`net i` is the reply to the i-th POST, `fuel` the remaining attempts, and
`calls` instruments the number of `generate_quiz` calls made so far (the
source keeps no counter; the count is ghost state for the statements below).
An exception from `generate_quiz` or from `parse_quiz` is not caught: it
propagates out of the loop. -/
def retryAux (net : Nat → Except PyErr HttpResponse) (categories : String)
    (ctx : StContext) (i fuel calls : Nat) :
    StContext × Except PyErr (JVal × String) × Nat :=
  match fuel with
  | 0 => (pushError ctx retryFailMsg, .ok (.arr [], ""), calls)
  | fuel2 + 1 =>
    match generate_quiz categories (net i) with
    | .error e => (ctx, .error e, calls + 1)
    | .ok text =>
      match parse_quiz ctx text with
      | (ctx2, .error e) => (ctx2, .error e, calls + 1)
      | (ctx2, .ok parsed) =>
        if parsed.truthy then (ctx2, .ok (parsed, text), calls + 1)
        else retryAux net categories ctx2 (i + 1) fuel2 (calls + 1)

/-- Model of `generate_quiz_with_retry(categories, retries=3)`
(`src/app.py` lines 67-74).  Returns the final Streamlit context, the
outcome (`.ok (parsed, text)` on first truthy parse, `.ok ([], "")` on
exhaustion, `.error e` when an uncaught exception escapes), and the number of
`generate_quiz` calls made. -/
def generate_quiz_with_retry (net : Nat → Except PyErr HttpResponse)
    (categories : String) (ctx : StContext) (retries : Nat) :
    StContext × Except PyErr (JVal × String) × Nat :=
  retryAux net categories ctx 0 retries 0

/-- Key lookup on a JSON value, as an option (specification-side helper). -/
def jGet (v : JVal) (k : String) : Option JVal :=
  match v with
  | .obj f => lookupLast f k
  | _ => none

/-- Index lookup on a JSON value, as an option (specification-side helper). -/
def jAt (v : JVal) (i : Nat) : Option JVal :=
  match v with
  | .arr l => l[i]?
  | _ => none

/-- Specification-side candidate path `candidates[0].content.parts[0].text`
through a deserialized response body. -/
def extractChain (body : String) : Option JVal :=
  match jsonLoads body with
  | .error _ => none
  | .ok v =>
    (jGet v "candidates").bind fun cands =>
      (jAt cands 0).bind fun c0 =>
        (jGet c0 "content").bind fun content =>
          (jGet content "parts").bind fun parts =>
            (jAt parts 0).bind fun p0 => jGet p0 "text"

/-- Specification-side success condition of Prompt-and-Fetch: the response
body deserializes and holds a first candidate with extractable text
(`candidates[0].content.parts[0].text`, a string). -/
def extractCandidateText (body : String) : Option String :=
  match extractChain body with
  | some (.str t) => some t
  | _ => none

/-- Hexadecimal digit character (lowercase), as emitted by Python `json`. -/
def hexDigitChar (n : Nat) : Char :=
  if n < 10 then Char.ofNat (48 + n) else Char.ofNat (87 + n)

/-- Four-digit `\uXXXX` escape for a code unit below 0x10000. -/
def uEscape (n : Nat) : List Char :=
  ['\\', 'u', hexDigitChar (n / 4096 % 16), hexDigitChar (n / 256 % 16),
    hexDigitChar (n / 16 % 16), hexDigitChar (n % 16)]

/-- Escape of one character in a JSON string emitted by Python `json.dump`
with its default `ensure_ascii=True`: the seven short escapes, printable
ASCII verbatim, `\uXXXX` otherwise, surrogate pairs above 0xFFFF. -/
def escapeChar (c : Char) : List Char :=
  if c = '"' then ['\\', '"']
  else if c = '\\' then ['\\', '\\']
  else if c = '\x08' then ['\\', 'b']
  else if c = '\x0c' then ['\\', 'f']
  else if c = '\n' then ['\\', 'n']
  else if c = '\r' then ['\\', 'r']
  else if c = '\t' then ['\\', 't']
  else if 0x20 ≤ c.toNat && c.toNat ≤ 0x7e then [c]
  else if c.toNat < 0x10000 then uEscape c.toNat
  else uEscape (0xd800 + (c.toNat - 0x10000) / 0x400) ++ uEscape (0xdc00 + (c.toNat - 0x10000) % 0x400)

/-- Escape of a whole string body. -/
def escChars : List Char → List Char
  | [] => []
  | c :: cs => escapeChar c ++ escChars cs

/-- Model of `save_quiz_file` (`src/app.py` lines 79-81): the exact file text
written by `json.dump(\x7b"quiz_text": quiz_text\x7d, f, indent=4)`. -/
def save_quiz_file (quiz_text : String) : String :=
  "\x7b\n    \"quiz_text\": \"" ++ String.mk (escChars quiz_text.data) ++ "\"\n\x7d"

/-- Model of `load_quiz_file` (`src/app.py` lines 83-88): the argument is the
file's content, or `none` when the file is missing (`FileNotFoundError`, the
only exception caught, returns `None`).  A corrupt file or a missing
`"quiz_text"` key raises. -/
def load_quiz_file (file : Option String) : Except PyErr (Option JVal) :=
  match file with
  | none => .ok none
  | some content =>
    match jsonLoads content with
    | .error _ => .error .jsonDecodeError
    | .ok v =>
      match pyGetKey v "quiz_text" with
      | .error e => .error e
      | .ok t => .ok (some t)

/-- Scoring loop of the Submit Quiz handler (`src/app.py` lines 208-218),
from question index `i`: one point when the answer's first letter equals the
question's `"correct"` value, unanswered positions collected 1-based.
`answers[i]` raises `IndexError` past the end; `q["correct"]` raises as
Python subscripting does. -/
def scoreLoop (qs : List JVal) (answers : List String) (i : Nat) :
    Except PyErr (Nat × List Nat) :=
  match qs with
  | [] => .ok (0, [])
  | q :: rest =>
    match answers[i]? with
    | none => .error .indexError
    | some answer =>
      if answer.data.isEmpty then
        match scoreLoop rest answers (i + 1) with
        | .ok (s, u) => .ok (s, (i + 1) :: u)
        | .error e => .error e
      else
        match pyGetKey q "correct" with
        | .error e => .error e
        | .ok corr =>
          match scoreLoop rest answers (i + 1) with
          | .ok (s, u) =>
            match corr with
            | .str lbl => .ok ((if String.mk [answer.data.headD ' '] = lbl then 1 else 0) + s, u)
            | _ => .ok (s, u)
          | .error e => .error e

/-- Submit-time scoring over all questions (`src/app.py` lines 208-218). -/
def submitQuizScore (qs : List JVal) (answers : List String) : Except PyErr (Nat × List Nat) :=
  scoreLoop qs answers 0

/-- Records returned by the parser do not depend on the Streamlit context:
only the message log differs between runs. -/
theorem parse_quiz_snd_eq (ctx : StContext) (t : String) :
    (parse_quiz ctx t).2 = parseQuizValue t := by
  unfold parseQuizValue parse_quiz salvageOn
  split
  · rfl
  · split
    · split
      · rfl
      · rfl
    · rfl

/-- A list without a right brace has no regex match end. -/
theorem takeToLastRBrace_of_not_mem (c : List Char) (h : '\x7d' ∉ c) :
    takeToLastRBrace c = none := by
  induction c with
  | nil => rfl
  | cons x xs ih =>
    have hx : x ≠ '\x7d' := fun he => h (he ▸ List.mem_cons_self x xs)
    have hxs : '\x7d' ∉ xs := fun hm => h (List.mem_cons_of_mem x hm)
    simp [takeToLastRBrace, ih hxs, hx]

/-- Greedy end of the match: the last right brace of the input. -/
theorem takeToLastRBrace_append (b c : List Char) (h : '\x7d' ∉ c) :
    takeToLastRBrace (b ++ '\x7d' :: c) = some (b ++ ['\x7d']) := by
  induction b with
  | nil =>
    simp [takeToLastRBrace, takeToLastRBrace_of_not_mem c h]
  | cons x xs ih =>
    simp [takeToLastRBrace, ih]

/-- Start of the match: the first left brace of the input. -/
theorem dropToLBrace_append (a r : List Char) (h : '\x7b' ∉ a) :
    dropToLBrace (a ++ '\x7b' :: r) = some ('\x7b' :: r) := by
  induction a with
  | nil => rfl
  | cons x xs ih =>
    have hx : x ≠ '\x7b' := fun he => h (he ▸ List.mem_cons_self x xs)
    have hxs : '\x7b' ∉ xs := fun hm => h (List.mem_cons_of_mem x hm)
    simp [dropToLBrace, hx, ih hxs]

/-- Characterization of the regex search: on an input that decomposes as
`a ++ left-brace ++ b ++ right-brace ++ c` with no left brace in `a` and no
right brace in `c`, the greedy match runs from that first left brace through
that last right brace. -/
theorem jsonSearch_decomp (a b c : List Char) (ha : '\x7b' ∉ a) (hc : '\x7d' ∉ c) :
    jsonSearch (a ++ '\x7b' :: (b ++ '\x7d' :: c)) = some ('\x7b' :: (b ++ ['\x7d'])) := by
  unfold jsonSearch
  rw [dropToLBrace_append a _ ha]
  show takeToLastRBrace ('\x7b' :: (b ++ '\x7d' :: c)) = some ('\x7b' :: (b ++ ['\x7d']))
  have h2 : '\x7b' :: (b ++ '\x7d' :: c) = ('\x7b' :: b) ++ '\x7d' :: c := by simp
  rw [h2, takeToLastRBrace_append _ _ hc]
  simp

/-- Number of generate_quiz calls made by the loop is bounded by the remaining fuel. -/
theorem retryAux_calls_le (net : Nat → Except PyErr HttpResponse) (categories : String) :
    ∀ fuel ctx i calls, (retryAux net categories ctx i fuel calls).2.2 ≤ calls + fuel := by
  intro fuel
  induction fuel with
  | zero => intro ctx i calls; simp [retryAux]
  | succ f ih =>
    intro ctx i calls
    unfold retryAux
    cases hg : generate_quiz categories (net i) with
    | error e => simp
    | ok text =>
      simp only
      rcases hp : parse_quiz ctx text with ⟨ctx2, r⟩
      cases r with
      | error e => simp
      | ok parsed =>
        by_cases ht : parsed.truthy
        · simp [ht]
        · simp [ht]
          have := ih ctx2 (i + 1) (calls + 1)
          omega

/-- First truthy parse wins: if attempts before `k` all come back with falsy
parses and attempt `k` parses truthy, the loop returns that attempt's pair
having made exactly `k + 1` calls. -/
theorem retryAux_first_success (net : Nat → Except PyErr HttpResponse) (categories : String) :
    ∀ k fuel i ctx calls t v, k < fuel →
      (∀ j, j < k → ∃ tj vj, generate_quiz categories (net (i + j)) = .ok tj ∧
          parseQuizValue tj = .ok vj ∧ vj.truthy = false) →
      generate_quiz categories (net (i + k)) = .ok t →
      parseQuizValue t = .ok v → v.truthy = true →
      (retryAux net categories ctx i fuel calls).2 = (.ok (v, t), calls + k + 1) := by
  intro k
  induction k with
  | zero =>
    intro fuel i ctx calls t v hk hprev hg hp ht
    obtain ⟨f, rfl⟩ : ∃ f, fuel = f + 1 := ⟨fuel - 1, by omega⟩
    simp only [Nat.add_zero] at hg
    unfold retryAux
    rw [hg]
    simp only
    rcases hpair : parse_quiz ctx t with ⟨ctx2, r⟩
    have hr : r = .ok v := by
      have h2 := parse_quiz_snd_eq ctx t
      rw [hpair, hp] at h2
      exact h2
    subst hr
    simp [ht]
  | succ k ih =>
    intro fuel i ctx calls t v hk hprev hg hp ht
    obtain ⟨f, rfl⟩ : ∃ f, fuel = f + 1 := ⟨fuel - 1, by omega⟩
    obtain ⟨t0, v0, hg0, hp0, ht0⟩ := hprev 0 (Nat.succ_pos k)
    simp only [Nat.add_zero] at hg0
    unfold retryAux
    rw [hg0]
    simp only
    rcases hpair : parse_quiz ctx t0 with ⟨ctx2, r⟩
    have hr : r = .ok v0 := by
      have h2 := parse_quiz_snd_eq ctx t0
      rw [hpair, hp0] at h2
      exact h2
    subst hr
    simp only [ht0, Bool.false_eq_true, if_false]
    have harith : i + 1 + k = i + (k + 1) := by omega
    have hres := ih f (i + 1) ctx2 (calls + 1) t v (by omega)
      (fun j hj => by
        obtain ⟨tj, vj, a1, a2, a3⟩ := hprev (j + 1) (Nat.succ_lt_succ hj)
        refine ⟨tj, vj, ?_, a2, a3⟩
        have hh : i + 1 + j = i + (j + 1) := by omega
        rw [hh]; exact a1)
      (by rw [harith]; exact hg) hp ht
    rw [hres]
    congr 1
    omega

/-- Exhaustion: when every attempt within the budget comes back with a falsy
parse, the loop spends the whole budget, reports the failure message last,
and returns the empty pair. -/
theorem retryAux_exhaust (net : Nat → Except PyErr HttpResponse) (categories : String) :
    ∀ fuel i ctx calls,
      (∀ j, j < fuel → ∃ tj vj, generate_quiz categories (net (i + j)) = .ok tj ∧
          parseQuizValue tj = .ok vj ∧ vj.truthy = false) →
      ∃ ctx2, retryAux net categories ctx i fuel calls =
        (pushError ctx2 retryFailMsg, .ok (.arr [], ""), calls + fuel) := by
  intro fuel
  induction fuel with
  | zero => intro i ctx calls h; exact ⟨ctx, rfl⟩
  | succ f ih =>
    intro i ctx calls h
    obtain ⟨t0, v0, hg0, hp0, ht0⟩ := h 0 (Nat.succ_pos f)
    simp only [Nat.add_zero] at hg0
    unfold retryAux
    rw [hg0]
    simp only
    rcases hpair : parse_quiz ctx t0 with ⟨ctx2, r⟩
    have hr : r = .ok v0 := by
      have h2 := parse_quiz_snd_eq ctx t0
      rw [hpair, hp0] at h2
      exact h2
    subst hr
    simp only [ht0, Bool.false_eq_true, if_false]
    obtain ⟨ctx3, hc⟩ := ih (i + 1) ctx2 (calls + 1) (fun j hj => by
      obtain ⟨tj, vj, a1, a2, a3⟩ := h (j + 1) (Nat.succ_lt_succ hj)
      refine ⟨tj, vj, ?_, a2, a3⟩
      have hh : i + 1 + j = i + (j + 1) := by omega
      rw [hh]; exact a1)
    refine ⟨ctx3, ?_⟩
    rw [hc]
    congr 1
    simp
    omega

/-- Any truthy pair returned by the loop re-parses to the same records. -/
theorem retryAux_success_parses (net : Nat → Except PyErr HttpResponse) (categories : String) :
    ∀ fuel i ctx calls v t,
      (retryAux net categories ctx i fuel calls).2.1 = .ok (v, t) →
      v.truthy = true →
      parseQuizValue t = .ok v := by
  intro fuel
  induction fuel with
  | zero =>
    intro i ctx calls v t h htr
    simp [retryAux] at h
    obtain ⟨hv, ht2⟩ := h
    rw [← hv] at htr
    simp [JVal.truthy] at htr
  | succ f ih =>
    intro i ctx calls v t h htr
    unfold retryAux at h
    cases hg : generate_quiz categories (net i) with
    | error e => rw [hg] at h; simp at h
    | ok text =>
      rw [hg] at h
      simp only at h
      rcases hpair : parse_quiz ctx text with ⟨ctx2, r⟩
      rw [hpair] at h
      cases r with
      | error e => simp at h
      | ok parsed =>
        by_cases ht : parsed.truthy
        · simp [ht] at h
          obtain ⟨h1, h2⟩ := h
          have hpe := parse_quiz_snd_eq ctx text
          rw [hpair] at hpe
          rw [← h2, ← hpe, h1]
        · simp [ht] at h
          exact ih _ _ _ _ _ h htr

/-- Response body whose first candidate's text is the JSON quiz document
`goodText` (which parses to a truthy, non-empty quiz array). -/
def goodBody : String :=
  "\x7b\"candidates\":[\x7b\"content\":\x7b\"parts\":[\x7b\"text\":\"\x7b\\\"quiz\\\":[1]\x7d\"\x7d]\x7d\x7d]\x7d"

/-- Raw text `goodBody` delivers: a quiz document with a non-empty array. -/
def goodText : String := "\x7b\"quiz\":[1]\x7d"

/-- Response body whose first candidate's text contains no JSON at all, so
every parse of it is falsy. -/
def proseBody : String :=
  "\x7b\"candidates\":[\x7b\"content\":\x7b\"parts\":[\x7b\"text\":\"no quiz here\"\x7d]\x7d\x7d]\x7d"

/-- Network oracle whose first POST fails in transport and whose later POSTs
deliver a perfectly good quiz. -/
def failFirstNet : Nat → Except PyErr HttpResponse :=
  fun i => if i = 0 then .error .transport else .ok ⟨200, goodBody⟩

/-- Claim C1 is refuted: a transport failure of the very first
Prompt-and-Fetch attempt is not swallowed by `generate_quiz_with_retry` — it
surfaces to the caller after a single call, even though the second attempt
would have produced a raw text whose parse is a non-empty quiz array. -/
theorem c1_counterexample :
    generate_quiz_with_retry failFirstNet "networking" ⟨[]⟩ 3 = (⟨[]⟩, .error .transport, 1) ∧
    generate_quiz "networking" (failFirstNet 1) = .ok goodText ∧
    parseQuizValue goodText = .ok (.arr [.num 1]) ∧
    (JVal.arr [.num 1]).truthy = true :=
  ⟨rfl, rfl, rfl, rfl⟩

/-- Claim C1 (amended): an exception from a Prompt-and-Fetch attempt
(transport failure, non-success status, malformed response) is not caught by
`generate_quiz_with_retry`: it propagates to the caller at once, after one
call.  Only a parse failure — the parser returning a falsy value — is local
to its attempt: the loop then continues with the next attempt. -/
theorem c1_failure_propagation :
    (∀ (net : Nat → Except PyErr HttpResponse) (categories : String) (ctx : StContext) e r,
      generate_quiz categories (net 0) = .error e →
      generate_quiz_with_retry net categories ctx (r + 1) = (ctx, .error e, 1)) ∧
    (∀ (net : Nat → Except PyErr HttpResponse) (categories : String) (ctx : StContext) t v r,
      generate_quiz categories (net 0) = .ok t →
      parseQuizValue t = .ok v → v.truthy = false →
      generate_quiz_with_retry net categories ctx (r + 1) =
        retryAux net categories (parse_quiz ctx t).1 1 r 1) := by
  constructor
  · intro net categories ctx e r hg
    unfold generate_quiz_with_retry retryAux
    rw [hg]
  · intro net categories ctx t v r hg hp htr
    conv_lhs => unfold generate_quiz_with_retry retryAux
    rw [hg]
    simp only
    rcases hpair : parse_quiz ctx t with ⟨ctx2, rr⟩
    have hr : rr = .ok v := by
      have h2 := parse_quiz_snd_eq ctx t
      rw [hpair, hp] at h2
      exact h2
    subst hr
    simp [htr, hpair]

/-- Witness for the amended C1 at concrete inputs. -/
theorem c1_failure_propagation_witness :
    generate_quiz_with_retry failFirstNet "networking" ⟨[]⟩ 3 = (⟨[]⟩, .error .transport, 1) ∧
    generate_quiz_with_retry (fun _ => .ok ⟨200, proseBody⟩) "networking" ⟨[]⟩ 3 =
      retryAux (fun _ => .ok ⟨200, proseBody⟩) "networking"
        (parse_quiz ⟨[]⟩ "no quiz here").1 1 2 1 := by
  constructor
  · exact c1_failure_propagation.1 failFirstNet "networking" ⟨[]⟩ .transport 2 rfl
  · exact c1_failure_propagation.2 (fun _ => .ok ⟨200, proseBody⟩) "networking" ⟨[]⟩
      "no quiz here" (.arr []) 2 rfl rfl rfl

/-- Claim C2: the retry coordinator makes at most 3 Prompt-and-Fetch calls,
and the first attempt whose raw text parses to a truthy (non-empty) quiz
value wins: its pair is returned immediately, after exactly `k + 1` calls. -/
theorem c2_at_most_three_first_success_wins :
    (∀ (net : Nat → Except PyErr HttpResponse) (categories : String) (ctx : StContext),
      (generate_quiz_with_retry net categories ctx 3).2.2 ≤ 3) ∧
    (∀ (net : Nat → Except PyErr HttpResponse) (categories : String) (ctx : StContext) k t v,
      k < 3 →
      (∀ j, j < k → ∃ tj vj, generate_quiz categories (net j) = .ok tj ∧
          parseQuizValue tj = .ok vj ∧ vj.truthy = false) →
      generate_quiz categories (net k) = .ok t →
      parseQuizValue t = .ok v → v.truthy = true →
      (generate_quiz_with_retry net categories ctx 3).2 = (.ok (v, t), k + 1)) := by
  constructor
  · intro net categories ctx
    have h := retryAux_calls_le net categories 3 ctx 0 0
    simpa [generate_quiz_with_retry] using h
  · intro net categories ctx k t v hk hprev hg hp ht
    have h := retryAux_first_success net categories k 3 0 ctx 0 t v hk
      (fun j hj => by simpa using hprev j hj)
      (by simpa using hg) hp ht
    simpa [generate_quiz_with_retry] using h

/-- Witness for C2 at a concrete network succeeding on the first attempt. -/
theorem c2_witness :
    (generate_quiz_with_retry (fun _ => .ok ⟨200, goodBody⟩) "t" ⟨[]⟩ 3).2.2 ≤ 3 ∧
    (generate_quiz_with_retry (fun _ => .ok ⟨200, goodBody⟩) "t" ⟨[]⟩ 3).2 =
      (.ok (.arr [.num 1], goodText), 1) := by
  constructor
  · exact c2_at_most_three_first_success_wins.1 _ "t" ⟨[]⟩
  · exact c2_at_most_three_first_success_wins.2 _ "t" ⟨[]⟩ 0 goodText (.arr [.num 1])
      (by decide) (fun j hj => absurd hj (Nat.not_lt_zero j)) rfl rfl rfl

/-- Claim C5: when every attempt's raw text parses to a falsy value, the
retry coordinator returns the pair of an empty list and an empty string, and
its last user-facing message is the retry-exhaustion failure signal. -/
theorem c5_exhaustion_returns_empty :
    ∀ (net : Nat → Except PyErr HttpResponse) (categories : String) (ctx : StContext) retries,
      (∀ j, j < retries → ∃ tj vj, generate_quiz categories (net j) = .ok tj ∧
          parseQuizValue tj = .ok vj ∧ vj.truthy = false) →
      (generate_quiz_with_retry net categories ctx retries).2.1 = .ok (.arr [], "") ∧
      (generate_quiz_with_retry net categories ctx retries).1.errors.getLast? =
        some retryFailMsg := by
  intro net categories ctx retries h
  obtain ⟨ctx2, hc⟩ := retryAux_exhaust net categories retries 0 ctx 0
    (fun j hj => by simpa using h j hj)
  unfold generate_quiz_with_retry
  rw [hc]
  exact ⟨rfl, by simp [pushError]⟩

/-- Witness for C5 at a concrete network always delivering prose. -/
theorem c5_witness :
    (generate_quiz_with_retry (fun _ => .ok ⟨200, proseBody⟩) "t" ⟨[]⟩ 3).2.1 =
      .ok (.arr [], "") ∧
    (generate_quiz_with_retry (fun _ => .ok ⟨200, proseBody⟩) "t" ⟨[]⟩ 3).1.errors.getLast? =
      some retryFailMsg :=
  c5_exhaustion_returns_empty _ "t" ⟨[]⟩ 3
    (fun _ _ => ⟨"no quiz here", .arr [], rfl, rfl, rfl⟩)

/-- Claim C7: the parser is a deterministic pure function of its input text:
its records do not depend on the ambient Streamlit context (the only effect,
`st.error`, is write-only), and a second call on the same text — even after
the first call's effect — returns the same records.  The embedding performs
no network I/O by construction. -/
theorem c7_parse_quiz_deterministic (ctx1 ctx2 : StContext) (t : String) :
    (parse_quiz ctx1 t).2 = (parse_quiz ctx2 t).2 ∧
    (parse_quiz (parse_quiz ctx1 t).1 t).2 = (parse_quiz ctx1 t).2 := by
  constructor
  · rw [parse_quiz_snd_eq, parse_quiz_snd_eq]
  · rw [parse_quiz_snd_eq, parse_quiz_snd_eq]

/-- Claim C9: a truthy pair returned by the retry coordinator is consistent:
re-running the parser on the returned raw text yields exactly the returned
records (what readers of the persisted `quiz_text` rely on). -/
theorem c9_returned_text_reparses :
    ∀ (net : Nat → Except PyErr HttpResponse) (categories : String) (ctx : StContext) retries v t,
      (generate_quiz_with_retry net categories ctx retries).2.1 = .ok (v, t) →
      v.truthy = true →
      parseQuizValue t = .ok v := by
  intro net categories ctx retries v t h htr
  exact retryAux_success_parses net categories retries 0 ctx 0 v t h htr

/-- Witness for C9 at a concrete successful run. -/
theorem c9_witness : parseQuizValue goodText = .ok (.arr [.num 1]) :=
  c9_returned_text_reparses (fun _ => .ok ⟨200, goodBody⟩) "t" ⟨[]⟩ 3
    (.arr [.num 1]) goodText rfl rfl

/-- Claim C3 is refuted: a syntactically valid JSON document lacking the
`"quiz"` key does not make `parse_quiz` return the empty sequence — the
uncaught subscript `KeyError` escapes instead (only `json.JSONDecodeError`
is caught). -/
theorem c3_counterexample :
    parseQuizValue "\x7b\"other\":[]\x7d" = .error (.keyError "quiz") ∧
    parseQuizValue "\x7b\"other\":[]\x7d" ≠ .ok (.arr []) :=
  ⟨rfl, fun h => Except.noConfusion h⟩

/-- Claim C3 (amended): when the strict step fails with a deserialization
error, `parse_quiz` reports a parse failure and returns the empty sequence —
distinguishing no-JSON-like-substring from substring-still-invalid; but when
the strict step deserializes successfully, no salvage happens and the result
is the bare subscript `json.loads(text)["quiz"]`, which raises a `KeyError`
(not an empty return) when the key is missing. -/
theorem c3_parse_failure_reporting :
    ∀ (ctx : StContext) (t : String),
      (jsonLoads t = .error () → jsonSearch t.data = none →
        parse_quiz ctx t = (pushError ctx noJsonMsg, .ok (.arr []))) ∧
      (∀ m, jsonLoads t = .error () → jsonSearch t.data = some m →
        jsonLoads (String.mk m) = .error () →
        parse_quiz ctx t = (pushError ctx invalidJsonMsg, .ok (.arr []))) ∧
      (∀ v, jsonLoads t = .ok v → parse_quiz ctx t = (ctx, pyGetKey v "quiz")) := by
  intro ctx t
  refine ⟨?_, ?_, ?_⟩
  · intro h1 h2
    unfold parse_quiz
    rw [h1]
    simp only
    rw [h2]
  · intro m h1 h2 h3
    unfold parse_quiz
    rw [h1]
    simp only
    rw [h2]
    simp only
    unfold salvageOn
    rw [h3]
  · intro v h1
    unfold parse_quiz
    rw [h1]

/-- Witness for the amended C3 at three concrete texts: no JSON-like
substring, an invalid JSON-like substring, and a valid document missing the
key (which raises `KeyError "quiz"`). -/
theorem c3_witness :
    parse_quiz ⟨[]⟩ "no json here" = (pushError ⟨[]⟩ noJsonMsg, .ok (.arr [])) ∧
    parse_quiz ⟨[]⟩ "x \x7b bad \x7d y" = (pushError ⟨[]⟩ invalidJsonMsg, .ok (.arr [])) ∧
    parse_quiz ⟨[]⟩ "\x7b\"other\":[]\x7d" =
      (⟨[]⟩, pyGetKey (.obj [("other", .arr [])]) "quiz") := by
  refine ⟨?_, ?_, ?_⟩
  · exact (c3_parse_failure_reporting ⟨[]⟩ "no json here").1 rfl rfl
  · exact (c3_parse_failure_reporting ⟨[]⟩ "x \x7b bad \x7d y").2.1
      ("\x7b bad \x7d".data) rfl rfl rfl
  · exact (c3_parse_failure_reporting ⟨[]⟩ "\x7b\"other\":[]\x7d").2.2
      (.obj [("other", .arr [])]) rfl

/-- Raw text of the section-8 salvage example: a quiz object wrapped in
leading and trailing prose. -/
def ex8Text : String :=
  "Here is your quiz: \x7b\"quiz\":[\x7b\"question\":\"Q1\",\"options\":[\"A. x\",\"B. y\",\"C. z\",\"D. w\"],\"correct\":\"A\",\"explanation\":\"e\"\x7d]\x7d Thanks!"

/-- The single record salvaged from `ex8Text`. -/
def ex8Record : JVal :=
  .obj [("question", .str "Q1"),
    ("options", .arr [.str "A. x", .str "B. y", .str "C. z", .str "D. w"]),
    ("correct", .str "A"),
    ("explanation", .str "e")]

set_option maxRecDepth 40000 in
/-- Claim C4: when the whole-string parse raises, `parse_quiz` retries the
strict interpretation on exactly the greedy substring from the first left
brace through the last right brace (matching across newlines); on the
section-8 example the salvage succeeds with one record whose question is
`"Q1"`. -/
theorem c4_salvage_greedy_substring :
    (∀ (ctx : StContext) (a b c : List Char), '\x7b' ∉ a → '\x7d' ∉ c →
      jsonLoads (String.mk (a ++ '\x7b' :: (b ++ '\x7d' :: c))) = .error () →
      parse_quiz ctx (String.mk (a ++ '\x7b' :: (b ++ '\x7d' :: c))) =
        salvageOn ctx ('\x7b' :: (b ++ ['\x7d']))) ∧
    parseQuizValue ex8Text = .ok (.arr [ex8Record]) ∧
    jGet ex8Record "question" = some (.str "Q1") := by
  refine ⟨?_, rfl, rfl⟩
  intro ctx a b c ha hc hload
  unfold parse_quiz
  rw [hload]
  simp only
  rw [jsonSearch_decomp a b c ha hc]

set_option maxRecDepth 40000 in
/-- Witness for C4: the general salvage statement applied to the section-8
example's decomposition. -/
theorem c4_witness :
    parse_quiz ⟨[]⟩ (String.mk (("Here is your quiz: ".data) ++ '\x7b' ::
        (("\"quiz\":[\x7b\"question\":\"Q1\",\"options\":[\"A. x\",\"B. y\",\"C. z\",\"D. w\"],\"correct\":\"A\",\"explanation\":\"e\"\x7d]".data) ++ '\x7d' :: (" Thanks!".data)))) =
      salvageOn ⟨[]⟩ ('\x7b' ::
        (("\"quiz\":[\x7b\"question\":\"Q1\",\"options\":[\"A. x\",\"B. y\",\"C. z\",\"D. w\"],\"correct\":\"A\",\"explanation\":\"e\"\x7d]".data) ++ ['\x7d'])) :=
  c4_salvage_greedy_substring.1 ⟨[]⟩ _ _ _ (by decide) (by decide) rfl

/-- Forgetting the exception of a Python subscript result. -/
def exceptToOption : Except PyErr JVal → Option JVal
  | .ok v => some v
  | .error _ => none

/-- Subscript and option-lookup agree on dicts. -/
theorem pyGetKey_toOption (v : JVal) (k : String) :
    exceptToOption (pyGetKey v k) = jGet v k := by
  unfold pyGetKey jGet
  cases v with
  | obj fields =>
    rcases h : lookupLast fields k with _ | r
    · simp [h, exceptToOption]
    · simp [h, exceptToOption]
  | null => simp [exceptToOption]
  | bool b => simp [exceptToOption]
  | num n => simp [exceptToOption]
  | str s => simp [exceptToOption]
  | arr l => simp [exceptToOption]

/-- Subscript and option-lookup agree on lists. -/
theorem pyIndex_toOption (v : JVal) (i : Nat) :
    exceptToOption (pyIndex v i) = jAt v i := by
  unfold pyIndex jAt
  cases v with
  | arr items =>
    rcases h : items[i]? with _ | r
    · simp [h, exceptToOption]
    · simp [h, exceptToOption]
  | null => simp [exceptToOption]
  | bool b => simp [exceptToOption]
  | num n => simp [exceptToOption]
  | str s => simp [exceptToOption]
  | obj f => simp [exceptToOption]

/-- Success characterization of `gemini_chat`: it returns a value exactly
when the POST came back, with status 200, and the candidate path through the
parsed body reaches that value. -/
theorem gemini_chat_ok_iff (resp : Except PyErr HttpResponse) (v : JVal) :
    gemini_chat resp = .ok v ↔
      ∃ r, resp = .ok r ∧ r.status = 200 ∧ extractChain r.text = some v := by
  cases resp with
  | error e => simp [gemini_chat]
  | ok r =>
    unfold gemini_chat
    simp only
    by_cases hst : r.status = 200
    · rw [if_neg (by simp [hst])]
      simp only [hst, Except.ok.injEq]
      rcases hload : jsonLoads r.text with u | body
      · simp [extractChain, hload]
      · rcases hc : pyGetKey body "candidates" with e1 | cands
        · have h1 := pyGetKey_toOption body "candidates"
          rw [hc] at h1
          simp [extractChain, hload, hc, ← h1, exceptToOption]
        · have h1 := pyGetKey_toOption body "candidates"
          rw [hc] at h1
          rcases hc0 : pyIndex cands 0 with e2 | c0
          · have h2 := pyIndex_toOption cands 0
            rw [hc0] at h2
            simp [extractChain, hload, hc, hc0, ← h1, ← h2, exceptToOption]
          · have h2 := pyIndex_toOption cands 0
            rw [hc0] at h2
            rcases hct : pyGetKey c0 "content" with e3 | content
            · have h3 := pyGetKey_toOption c0 "content"
              rw [hct] at h3
              simp [extractChain, hload, hc, hc0, hct, ← h1, ← h2, ← h3, exceptToOption]
            · have h3 := pyGetKey_toOption c0 "content"
              rw [hct] at h3
              rcases hp : pyGetKey content "parts" with e4 | parts
              · have h4 := pyGetKey_toOption content "parts"
                rw [hp] at h4
                simp [extractChain, hload, hc, hc0, hct, hp, ← h1, ← h2, ← h3, ← h4,
                  exceptToOption]
              · have h4 := pyGetKey_toOption content "parts"
                rw [hp] at h4
                rcases hp0 : pyIndex parts 0 with e5 | p0
                · have h5 := pyIndex_toOption parts 0
                  rw [hp0] at h5
                  simp [extractChain, hload, hc, hc0, hct, hp, hp0, ← h1, ← h2, ← h3, ← h4,
                    ← h5, exceptToOption]
                · have h5 := pyIndex_toOption parts 0
                  rw [hp0] at h5
                  have h6 := pyGetKey_toOption p0 "text"
                  rcases ht : pyGetKey p0 "text" with e6 | tv
                  · rw [ht] at h6
                    simp [extractChain, hload, hc, hc0, hct, hp, hp0, ht, ← h1, ← h2, ← h3,
                      ← h4, ← h5, ← h6, exceptToOption]
                  · rw [ht] at h6
                    simp [extractChain, hload, hc, hc0, hct, hp, hp0, ht, ← h1, ← h2, ← h3,
                      ← h4, ← h5, ← h6, exceptToOption, hst]
    · rw [if_pos (by simp [hst])]
      simp [hst]

/-- Strings through the candidate path. -/
theorem extractCandidateText_eq_chain (body : String) (t : String) :
    extractCandidateText body = some t ↔ extractChain body = some (.str t) := by
  unfold extractCandidateText
  rcases h : extractChain body with _ | v
  · simp
  · cases v with
    | str s => simp
    | null => simp
    | bool b => simp
    | num n => simp
    | arr l => simp
    | obj f => simp

/-- Claim C6: Prompt-and-Fetch succeeds exactly when the HTTP status is the
success status (200) and the response body holds a first candidate with
extractable text, in which case `generate_quiz` returns that text stripped
of leading and trailing whitespace; and every non-200 response makes
`gemini_chat` raise the error carrying the status code and the body. -/
theorem c6_fetch_success_characterization :
    (∀ r : HttpResponse, r.status ≠ 200 →
      gemini_chat (.ok r) = .error (.apiError r.status r.text)) ∧
    (∀ (resp : Except PyErr HttpResponse) (categories s : String),
      generate_quiz categories resp = .ok s ↔
        ∃ r t, resp = .ok r ∧ r.status = 200 ∧ extractCandidateText r.text = some t ∧
          s = pyStrip t) := by
  constructor
  · intro r h
    unfold gemini_chat
    simp only
    rw [if_pos (by simpa using h)]
  · intro resp categories s
    unfold generate_quiz
    constructor
    · intro h
      rcases hg : gemini_chat resp with e | v
      · rw [hg] at h
        simp at h
      · rw [hg] at h
        cases v with
        | str s0 =>
          simp at h
          obtain ⟨r, hr, hst, hchain⟩ := (gemini_chat_ok_iff resp (.str s0)).mp hg
          exact ⟨r, s0, hr, hst, (extractCandidateText_eq_chain _ _).mpr hchain, h.symm⟩
        | null => simp at h
        | bool b => simp at h
        | num n => simp at h
        | arr l => simp at h
        | obj f => simp at h
    · rintro ⟨r, t, rfl, hst, hext, rfl⟩
      have hchain := (extractCandidateText_eq_chain _ _).mp hext
      have hg : gemini_chat (.ok r) = .ok (.str t) :=
        (gemini_chat_ok_iff _ _).mpr ⟨r, rfl, hst, hchain⟩
      rw [hg]

/-- Witness for C6: a concrete 500 response raising with status and body, and
a concrete 200 response with a good candidate succeeding. -/
theorem c6_witness :
    gemini_chat (.ok ⟨500, "boom"⟩) = .error (.apiError 500 "boom") ∧
    generate_quiz "t" (.ok ⟨200, goodBody⟩) = .ok goodText := by
  constructor
  · exact c6_fetch_success_characterization.1 ⟨500, "boom"⟩ (by decide)
  · exact (c6_fetch_success_characterization.2 (.ok ⟨200, goodBody⟩) "t" goodText).mpr
      ⟨⟨200, goodBody⟩, goodText, rfl, rfl, rfl, rfl⟩

/-- Hexadecimal digits decode back to their value. -/
theorem hexVal_hexDigitChar : ∀ n, n < 16 → hexVal (hexDigitChar n) = some n := by decide

/-- Four emitted hexadecimal digits decode back to the escaped code unit. -/
theorem hex4_digits (n : Nat) (h : n < 65536) :
    hex4 (hexDigitChar (n / 4096 % 16)) (hexDigitChar (n / 256 % 16))
      (hexDigitChar (n / 16 % 16)) (hexDigitChar (n % 16)) = some n := by
  unfold hex4
  rw [hexVal_hexDigitChar _ (by omega), hexVal_hexDigitChar _ (by omega),
    hexVal_hexDigitChar _ (by omega), hexVal_hexDigitChar _ (by omega)]
  simp only
  congr 1
  omega

/-- An emitted BMP escape decodes back to its character. -/
theorem decodeEscape_u (n : Nat) (tail : List Char) (hlt : n < 65536)
    (hval : n < 0xd800 ∨ 0xe000 ≤ n) :
    decodeEscape ('u' :: hexDigitChar (n / 4096 % 16) :: hexDigitChar (n / 256 % 16)
      :: hexDigitChar (n / 16 % 16) :: hexDigitChar (n % 16) :: tail) =
      some (Char.ofNat n, tail) := by
  rw [decodeEscape.eq_def]
  simp only
  rw [if_neg (by decide), if_neg (by decide), if_neg (by decide), if_neg (by decide),
    if_neg (by decide), if_neg (by decide), if_neg (by decide), if_neg (by decide),
    if_pos (by decide)]
  rw [hex4_digits n hlt]
  have hcond : (decide (n < 0xd800) || decide (0xe000 ≤ n)) = true := by
    rcases hval with h | h
    · simp [h]
    · simp [h]
  simp only [hcond, if_true]

/-- An emitted surrogate pair decodes back to one supplementary character. -/
theorem decodeEscape_pair (hi lo : Nat) (tail : List Char)
    (hhi1 : 0xd800 ≤ hi) (hhi2 : hi < 0xdc00) (hlo1 : 0xdc00 ≤ lo) (hlo2 : lo < 0xe000) :
    decodeEscape ('u' :: hexDigitChar (hi / 4096 % 16) :: hexDigitChar (hi / 256 % 16)
      :: hexDigitChar (hi / 16 % 16) :: hexDigitChar (hi % 16)
      :: '\\' :: 'u' :: hexDigitChar (lo / 4096 % 16) :: hexDigitChar (lo / 256 % 16)
      :: hexDigitChar (lo / 16 % 16) :: hexDigitChar (lo % 16) :: tail) =
      some (Char.ofNat (0x10000 + (hi - 0xd800) * 0x400 + (lo - 0xdc00)), tail) := by
  rw [decodeEscape.eq_def]
  simp only
  rw [if_neg (by decide), if_neg (by decide), if_neg (by decide), if_neg (by decide),
    if_neg (by decide), if_neg (by decide), if_neg (by decide), if_neg (by decide),
    if_pos (by decide)]
  rw [hex4_digits hi (by omega)]
  simp only
  rw [if_neg (by simp ; omega), if_pos (by omega)]
  rw [if_pos (by decide)]
  rw [hex4_digits lo (by omega)]
  simp only
  rw [if_pos (by simp ; omega)]

/-- Scanner step on a backslash: decode the escape and continue. -/
theorem psbF_backslash (f : Nat) (cs : List Char) (d : Char) (rest : List Char)
    (h : decodeEscape cs = some (d, rest)) :
    parseStringBodyF (f + 1) ('\\' :: cs) = consStr d (parseStringBodyF f rest) := by
  simp only [parseStringBodyF]
  rw [if_neg (by decide), if_pos (by decide)]
  rw [h]

/-- Scanner step on a plain character: keep it and continue. -/
theorem psbF_plain (f : Nat) (c : Char) (cs : List Char)
    (h1 : c ≠ '"') (h2 : c ≠ '\\') (h3 : ¬ c.toNat < 0x20) :
    parseStringBodyF (f + 1) (c :: cs) = consStr c (parseStringBodyF f cs) := by
  simp only [parseStringBodyF]
  rw [if_neg h1, if_neg h2, if_neg h3]

/-- Validity of a character's code point: below the surrogates, or above
them and within the Unicode range. -/
theorem charValid (c : Char) : c.toNat < 0xd800 ∨ (0xdfff < c.toNat ∧ c.toNat < 0x110000) :=
  c.valid

/-- Escape round trip for the fuelled scanner: an escaped string body
followed by a closing quote scans back to the original characters. -/
theorem psbF_escChars : ∀ (l : List Char) (f : Nat) (rest : List Char), l.length < f →
    parseStringBodyF f (escChars l ++ '"' :: rest) = some (l, rest) := by
  intro l
  induction l with
  | nil =>
    intro f rest hf
    obtain ⟨f2, rfl⟩ : ∃ f2, f = f2 + 1 := ⟨f - 1, by omega⟩
    rfl
  | cons c cs ih =>
    intro f rest hf
    obtain ⟨f2, rfl⟩ : ∃ f2, f = f2 + 1 := ⟨f - 1, by omega⟩
    have hcs : cs.length < f2 := by
      simp only [List.length_cons] at hf
      omega
    show parseStringBodyF (f2 + 1) ((escapeChar c ++ escChars cs) ++ '"' :: rest) = _
    rw [List.append_assoc]
    by_cases h1 : c = '"'
    · subst h1
      show parseStringBodyF (f2 + 1) ('\\' :: '"' :: (escChars cs ++ '"' :: rest)) = _
      rw [psbF_backslash f2 ('"' :: (escChars cs ++ '"' :: rest)) '"' (escChars cs ++ '"' :: rest) rfl, ih f2 rest hcs]
      rfl
    · by_cases h2 : c = '\\'
      · subst h2
        show parseStringBodyF (f2 + 1) ('\\' :: '\\' :: (escChars cs ++ '"' :: rest)) = _
        rw [psbF_backslash f2 ('\\' :: (escChars cs ++ '"' :: rest)) '\\' (escChars cs ++ '"' :: rest) rfl, ih f2 rest hcs]
        rfl
      · by_cases h3 : c = '\x08'
        · subst h3
          show parseStringBodyF (f2 + 1) ('\\' :: 'b' :: (escChars cs ++ '"' :: rest)) = _
          rw [psbF_backslash f2 ('b' :: (escChars cs ++ '"' :: rest)) '\x08' (escChars cs ++ '"' :: rest) rfl, ih f2 rest hcs]
          rfl
        · by_cases h4 : c = '\x0c'
          · subst h4
            show parseStringBodyF (f2 + 1) ('\\' :: 'f' :: (escChars cs ++ '"' :: rest)) = _
            rw [psbF_backslash f2 ('f' :: (escChars cs ++ '"' :: rest)) '\x0c' (escChars cs ++ '"' :: rest) rfl, ih f2 rest hcs]
            rfl
          · by_cases h5 : c = '\n'
            · subst h5
              show parseStringBodyF (f2 + 1) ('\\' :: 'n' :: (escChars cs ++ '"' :: rest)) = _
              rw [psbF_backslash f2 ('n' :: (escChars cs ++ '"' :: rest)) '\n' (escChars cs ++ '"' :: rest) rfl, ih f2 rest hcs]
              rfl
            · by_cases h6 : c = '\r'
              · subst h6
                show parseStringBodyF (f2 + 1) ('\\' :: 'r' :: (escChars cs ++ '"' :: rest)) = _
                rw [psbF_backslash f2 ('r' :: (escChars cs ++ '"' :: rest)) '\r' (escChars cs ++ '"' :: rest) rfl, ih f2 rest hcs]
                rfl
              · by_cases h7 : c = '\t'
                · subst h7
                  show parseStringBodyF (f2 + 1) ('\\' :: 't' :: (escChars cs ++ '"' :: rest)) = _
                  rw [psbF_backslash f2 ('t' :: (escChars cs ++ '"' :: rest)) '\t' (escChars cs ++ '"' :: rest) rfl, ih f2 rest hcs]
                  rfl
                · by_cases h8 : (decide (0x20 ≤ c.toNat) && decide (c.toNat ≤ 0x7e)) = true
                  · have he : escapeChar c = [c] := by
                      unfold escapeChar
                      rw [if_neg h1, if_neg h2, if_neg h3, if_neg h4, if_neg h5, if_neg h6,
                        if_neg h7, if_pos h8]
                    rw [he]
                    have h8p : 0x20 ≤ c.toNat := by
                      simp only [Bool.and_eq_true, decide_eq_true_eq] at h8
                      exact h8.1
                    show parseStringBodyF (f2 + 1) (c :: (escChars cs ++ '"' :: rest)) = _
                    rw [psbF_plain f2 c _ h1 h2 (by omega), ih f2 rest hcs]
                    rfl
                  · by_cases h9 : c.toNat < 0x10000
                    · have he : escapeChar c = uEscape c.toNat := by
                        unfold escapeChar
                        rw [if_neg h1, if_neg h2, if_neg h3, if_neg h4, if_neg h5, if_neg h6,
                          if_neg h7, if_neg h8, if_pos h9]
                      rw [he]
                      have hval : c.toNat < 0xd800 ∨ 0xe000 ≤ c.toNat := by
                        rcases charValid c with h | ⟨h, _⟩
                        · exact Or.inl h
                        · exact Or.inr (by omega)
                      show parseStringBodyF (f2 + 1) ('\\' :: 'u'
                        :: hexDigitChar (c.toNat / 4096 % 16) :: hexDigitChar (c.toNat / 256 % 16)
                        :: hexDigitChar (c.toNat / 16 % 16) :: hexDigitChar (c.toNat % 16)
                        :: (escChars cs ++ '"' :: rest)) = _
                      rw [psbF_backslash f2 _ _ _ (decodeEscape_u c.toNat _ (by omega) hval)]
                      rw [Char.ofNat_toNat, ih f2 rest hcs]
                      rfl
                    · have he : escapeChar c =
                          uEscape (0xd800 + (c.toNat - 0x10000) / 0x400) ++
                            uEscape (0xdc00 + (c.toNat - 0x10000) % 0x400) := by
                        unfold escapeChar
                        rw [if_neg h1, if_neg h2, if_neg h3, if_neg h4, if_neg h5, if_neg h6,
                          if_neg h7, if_neg h8, if_neg h9]
                      rw [he, List.append_assoc]
                      have hcv : c.toNat < 0x110000 := by
                        rcases charValid c with h | ⟨_, h⟩
                        · omega
                        · exact h
                      show parseStringBodyF (f2 + 1) ('\\' :: 'u'
                        :: hexDigitChar ((0xd800 + (c.toNat - 0x10000) / 0x400) / 4096 % 16)
                        :: hexDigitChar ((0xd800 + (c.toNat - 0x10000) / 0x400) / 256 % 16)
                        :: hexDigitChar ((0xd800 + (c.toNat - 0x10000) / 0x400) / 16 % 16)
                        :: hexDigitChar ((0xd800 + (c.toNat - 0x10000) / 0x400) % 16)
                        :: '\\' :: 'u'
                        :: hexDigitChar ((0xdc00 + (c.toNat - 0x10000) % 0x400) / 4096 % 16)
                        :: hexDigitChar ((0xdc00 + (c.toNat - 0x10000) % 0x400) / 256 % 16)
                        :: hexDigitChar ((0xdc00 + (c.toNat - 0x10000) % 0x400) / 16 % 16)
                        :: hexDigitChar ((0xdc00 + (c.toNat - 0x10000) % 0x400) % 16)
                        :: (escChars cs ++ '"' :: rest)) = _
                      rw [psbF_backslash f2 _ _ _
                        (decodeEscape_pair (0xd800 + (c.toNat - 0x10000) / 0x400)
                          (0xdc00 + (c.toNat - 0x10000) % 0x400) _
                          (by omega) (by omega) (by omega) (by omega))]
                      have harith : 0x10000 +
                          (0xd800 + (c.toNat - 0x10000) / 0x400 - 0xd800) * 0x400 +
                          (0xdc00 + (c.toNat - 0x10000) % 0x400 - 0xdc00) = c.toNat := by
                        omega
                      rw [harith, Char.ofNat_toNat, ih f2 rest hcs]
                      rfl

/-- Escaping never shortens a string. -/
theorem le_length_escChars (l : List Char) : l.length ≤ (escChars l).length := by
  induction l with
  | nil => simp [escChars]
  | cons c cs ih =>
    simp only [escChars, List.length_append, List.length_cons]
    have h1 : 1 ≤ (escapeChar c).length := by
      unfold escapeChar
      split_ifs <;> simp [uEscape]
    omega

/-- Escape round trip for the string-body scanner. -/
theorem parseStringBody_escChars (l rest : List Char) :
    parseStringBody (escChars l ++ '"' :: rest) = some (l, rest) := by
  unfold parseStringBody
  apply psbF_escChars
  have h := le_length_escChars l
  simp only [List.length_append, List.length_cons]
  omega

/-- Rebuilding a string from its characters is the identity. -/
theorem strMkData (s : String) : String.mk s.data = s := by
  cases s
  rfl

/-- Value parse of an escaped string literal. -/
theorem parseValue_string (f : Nat) (l rest : List Char) :
    parseValue (f + 1) ('"' :: (escChars l ++ '"' :: rest)) =
      some (.str (String.mk l), rest) := by
  simp only [parseValue]
  rw [if_neg (by decide), if_neg (by decide), if_pos (by decide)]
  rw [parseStringBody_escChars]

/-- Member parse of the one-key object written by `save_quiz_file`. -/
theorem parseObjectTail_doc (t : String) (f : Nat) :
    parseObjectTail (f + 2) ('"' :: 'q' :: 'u' :: 'i' :: 'z' :: '_' :: 't' :: 'e' :: 'x' :: 't'
      :: '"' :: ':' :: ' ' :: '"' :: (escChars t.data ++ '"' :: '\n' :: '\x7d' :: [])) =
      some (.obj [("quiz_text", .str t)], []) := by
  have hv : parseValue (f + 1) ('"' :: (escChars t.data ++ '"' :: '\n' :: '\x7d' :: [])) =
      some (.str t, '\n' :: '\x7d' :: []) := by
    rw [parseValue_string, strMkData]
  simp only [parseObjectTail]
  rw [show parseStringBody ('q' :: 'u' :: 'i' :: 'z' :: '_' :: 't' :: 'e' :: 'x' :: 't'
    :: '"' :: ':' :: ' ' :: '"' :: (escChars t.data ++ '"' :: '\n' :: '\x7d' :: [])) =
    some ("quiz_text".data, ':' :: ' ' :: '"' :: (escChars t.data ++ '"' :: '\n' :: '\x7d' :: []))
    from rfl]
  simp only
  rw [show skipWs (':' :: ' ' :: '"' :: (escChars t.data ++ '"' :: '\n' :: '\x7d' :: [])) =
    ':' :: ' ' :: '"' :: (escChars t.data ++ '"' :: '\n' :: '\x7d' :: []) from rfl]
  simp only
  rw [show skipWs (' ' :: '"' :: (escChars t.data ++ '"' :: '\n' :: '\x7d' :: [])) =
    '"' :: (escChars t.data ++ '"' :: '\n' :: '\x7d' :: []) from rfl]
  rw [hv]
  simp only
  rw [show skipWs ('\n' :: '\x7d' :: []) = '\x7d' :: [] from rfl]
  rfl

/-- Value parse of the document written by `save_quiz_file`. -/
theorem parseValue_doc (t : String) (f : Nat) :
    parseValue (f + 3) ('\x7b' :: '\n' :: ' ' :: ' ' :: ' ' :: ' ' :: '"' :: 'q' :: 'u' :: 'i'
      :: 'z' :: '_' :: 't' :: 'e' :: 'x' :: 't' :: '"' :: ':' :: ' ' :: '"'
      :: (escChars t.data ++ '"' :: '\n' :: '\x7d' :: [])) =
      some (.obj [("quiz_text", .str t)], []) := by
  simp only [parseValue]
  rw [if_pos (by decide)]
  rw [show skipWs ('\n' :: ' ' :: ' ' :: ' ' :: ' ' :: '"' :: 'q' :: 'u' :: 'i' :: 'z' :: '_'
    :: 't' :: 'e' :: 'x' :: 't' :: '"' :: ':' :: ' ' :: '"'
    :: (escChars t.data ++ '"' :: '\n' :: '\x7d' :: [])) =
    '"' :: 'q' :: 'u' :: 'i' :: 'z' :: '_' :: 't' :: 'e' :: 'x' :: 't' :: '"' :: ':' :: ' '
    :: '"' :: (escChars t.data ++ '"' :: '\n' :: '\x7d' :: []) from rfl]
  exact parseObjectTail_doc t f

/-- The persisted file text deserializes to the single-key object holding
the raw text verbatim. -/
theorem jsonLoads_save (t : String) :
    jsonLoads (save_quiz_file t) = .ok (.obj [("quiz_text", .str t)]) := by
  unfold jsonLoads
  rw [show skipWs ((save_quiz_file t).data) = (save_quiz_file t).data from rfl]
  rw [show 2 * (save_quiz_file t).length + 4 = (2 * (save_quiz_file t).length + 1) + 3 from by omega]
  rw [show (save_quiz_file t).data = '\x7b' :: '\n' :: ' ' :: ' ' :: ' ' :: ' ' :: '"' :: 'q'
    :: 'u' :: 'i' :: 'z' :: '_' :: 't' :: 'e' :: 'x' :: 't' :: '"' :: ':' :: ' ' :: '"'
    :: (escChars t.data ++ '"' :: '\n' :: '\x7d' :: []) from rfl]
  rw [parseValue_doc t (2 * (save_quiz_file t).length + 1)]
  rfl

/-- Claim C8: saving a quiz text and loading it back returns exactly that
string: the persisted file text deserializes to the single-key object holding
the raw text verbatim, and `load_quiz_file` reads back that exact string. -/
theorem c8_save_load_roundtrip (t : String) :
    jsonLoads (save_quiz_file t) = .ok (.obj [("quiz_text", .str t)]) ∧
    load_quiz_file (some (save_quiz_file t)) = .ok (some (.str t)) := by
  refine ⟨jsonLoads_save t, ?_⟩
  unfold load_quiz_file
  simp only
  rw [jsonLoads_save t]
  rfl

/-- First letter of an answer, as the one-character string Python computes
with `answer[0]`. -/
def firstLetter (a : String) : String := String.mk [a.data.headD ' ']

/-- Number of positions where the answer's first letter equals the correct
label (specification-side count). -/
def countMatches (labels answers : List String) : Nat :=
  ((labels.zip answers).filter (fun p => firstLetter p.2 = p.1)).length

/-- Scoring loop invariant: with all answers present and non-empty, and every
question carrying a string `"correct"` label, the loop counts exactly the
matching positions and flags nothing unanswered. -/
theorem scoreLoop_counts : ∀ (qs : List JVal) (labels suf pre : List String),
    List.Forall₂ (fun q l => pyGetKey q "correct" = .ok (.str l)) qs labels →
    suf.length = qs.length →
    (∀ a ∈ suf, a.data ≠ []) →
    scoreLoop qs (pre ++ suf) pre.length = .ok (countMatches labels suf, []) := by
  intro qs
  induction qs with
  | nil =>
    intro labels suf pre hf hlen hne
    cases hf
    have : suf = [] := List.eq_nil_of_length_eq_zero hlen
    subst this
    simp [scoreLoop, countMatches]
  | cons q qs ih =>
    intro labels suf pre hf hlen hne
    cases hf with
    | cons hql hf2 =>
      rename_i l ls
      cases suf with
      | nil => simp at hlen
      | cons a suf2 =>
        have ha : a.data ≠ [] := hne a (List.mem_cons_self a suf2)
        unfold scoreLoop
        rw [show (pre ++ a :: suf2)[pre.length]? = some a from by
          rw [List.getElem?_append_right (Nat.le_refl pre.length)]
          simp]
        simp only
        rw [if_neg (by simpa [List.isEmpty_iff] using ha)]
        rw [hql]
        simp only
        have hrec := ih ls suf2 (pre ++ [a]) hf2 (by simpa using hlen)
          (fun x hx => hne x (List.mem_cons_of_mem a hx))
        rw [show pre ++ a :: suf2 = (pre ++ [a]) ++ suf2 from by simp]
        rw [show pre.length + 1 = (pre ++ [a]).length from by simp]
        rw [hrec]
        simp only
        rw [show countMatches (l :: ls) (a :: suf2) =
          (if firstLetter a = l then 1 else 0) + countMatches ls suf2 from by
            unfold countMatches
            simp only [List.zip_cons_cons, List.filter_cons]
            by_cases hm : firstLetter a = l
            · simp [hm, Nat.add_comm]
            · simp [hm]]
        by_cases hm : firstLetter a = l
        · rw [if_pos (show String.mk [a.data.headD ' '] = l from hm), if_pos hm]
        · rw [if_neg (show ¬ String.mk [a.data.headD ' '] = l from hm), if_neg hm]

/-- Claim C10: submit-time scoring counts one point for each position where
the student's answer letter equals that question's correct label; in
particular answers A, B, C against correct labels A, A, C score 2. -/
theorem c10_scoring_counts_matches :
    (∀ (qs : List JVal) (labels answers : List String),
      List.Forall₂ (fun q l => pyGetKey q "correct" = .ok (.str l)) qs labels →
      answers.length = qs.length →
      (∀ a ∈ answers, a.data ≠ []) →
      submitQuizScore qs answers = .ok (countMatches labels answers, [])) ∧
    submitQuizScore
      [.obj [("correct", .str "A")], .obj [("correct", .str "A")], .obj [("correct", .str "C")]]
      ["A", "B", "C"] = .ok (2, []) := by
  constructor
  · intro qs labels answers hf hlen hne
    have h := scoreLoop_counts qs labels answers [] hf hlen hne
    simpa [submitQuizScore] using h
  · rfl

/-- Witness for C10: the general count applied to the section-8 scoring
example. -/
theorem c10_witness :
    submitQuizScore
      [.obj [("correct", .str "A")], .obj [("correct", .str "A")], .obj [("correct", .str "C")]]
      ["A", "B", "C"] = .ok (countMatches ["A", "A", "C"] ["A", "B", "C"], []) :=
  c10_scoring_counts_matches.1
    [.obj [("correct", .str "A")], .obj [("correct", .str "A")], .obj [("correct", .str "C")]]
    ["A", "A", "C"] ["A", "B", "C"]
    (by refine List.Forall₂.cons rfl (List.Forall₂.cons rfl (List.Forall₂.cons rfl ?_))
        exact List.Forall₂.nil)
    rfl
    (by intro a ha
        fin_cases ha <;> simp)
